import Mathlib

/-!
Shallow embedding of the `lighter_md` market-data service (store, bus, sender,
message parsing, analytics), translated from the Python sources, together with
theorems settling the specification claims.  Python floats are modelled as
exact rationals `ℚ` (reals `ℝ` where a square root occurs); `Optional[x]`
becomes `Option`; dictionaries become association lists; wall-clock time is an
explicit parameter.
-/

namespace LighterMD

/-! ### Tolerance (`MarketStore._almost_equal`, from `store.py`)

`math.isclose(left, right, rel_tol=1e-9, abs_tol=1e-9)` over exact rationals. -/

def relTol : ℚ := 1 / 1000000000

def absTol : ℚ := 1 / 1000000000

/-- `math.isclose` as used by `MarketStore._almost_equal`:
`|l - r| ≤ max(rel_tol * max(|l|, |r|), abs_tol)`. -/
def almostEqualQ (l r : ℚ) : Bool := |l - r| ≤ max (relTol * max |l| |r|) absTol

/-- `MarketStore._almost_equal`: `None` compares equal only to `None`. -/
def almostEqual (l r : Option ℚ) : Bool :=
  match l, r with
  | none, none => true
  | some a, some b => almostEqualQ a b
  | _, _ => false

/-- `MarketStore._assign_optional`: returns the new stored value and whether the
field was recorded as changed.  A `None` incoming value clears the field (change
only if it was present); a present incoming value overwrites unless the current
value is present and almost-equal. -/
def assignOptional (current value : Option ℚ) : Option ℚ × Bool :=
  match value with
  | none =>
    match current with
    | none => (none, false)
    | some _ => (none, true)
  | some v =>
    match current with
    | none => (some v, true)
    | some c => if almostEqualQ c v then (some c, false) else (some v, true)

/-- `MarketStore._update_if_not_none`: a `None` incoming value leaves the field
untouched. -/
def updateIfNotNone (current value : Option ℚ) : Option ℚ × Bool :=
  match value with
  | none => (current, false)
  | some v => assignOptional current (some v)

/-! ### Message model (`dto.py`, validated shapes) -/

structure OrderLevel where
  price : ℚ
  size : ℚ
deriving Repr, DecidableEq

structure OrderBookPayload where
  asks : List OrderLevel
  bids : List OrderLevel
deriving Repr, DecidableEq

structure OrderBookMsg where
  channel : String
  order_book : OrderBookPayload
deriving Repr, DecidableEq

structure MarketStatsBody where
  market_id : ℤ
  index_price : Option ℚ := none
  mark_price : Option ℚ := none
  open_interest : Option ℚ := none
  last_trade_price : Option ℚ := none
  current_funding_rate : Option ℚ := none
  funding_rate : Option ℚ := none
  daily_base_token_volume : Option ℚ := none
  daily_quote_token_volume : Option ℚ := none
deriving Repr, DecidableEq

/-- `MarketStatsBody.effective_funding_rate`: `current_funding_rate` preferred,
`funding_rate` fallback. -/
def MarketStatsBody.effectiveFundingRate (s : MarketStatsBody) : Option ℚ :=
  match s.current_funding_rate with
  | some v => some v
  | none => s.funding_rate

/-- `MarketStatsBody.effective_daily_volume`: `daily_quote_token_volume`
preferred, `daily_base_token_volume` fallback. -/
def MarketStatsBody.effectiveDailyVolume (s : MarketStatsBody) : Option ℚ :=
  match s.daily_quote_token_volume with
  | some v => some v
  | none => s.daily_base_token_volume

structure MarketStatsMsg where
  channel : String
  market_stats : MarketStatsBody
deriving Repr, DecidableEq

/-! ### MarketRow (`store.py`) -/

structure MarketRow where
  market_id : ℤ
  symbol : Option String := none
  best_bid_price : Option ℚ := none
  best_bid_size : Option ℚ := none
  best_ask_price : Option ℚ := none
  best_ask_size : Option ℚ := none
  last_price : Option ℚ := none
  mark_price : Option ℚ := none
  index_price : Option ℚ := none
  mid_price : Option ℚ := none
  daily_volume : Option ℚ := none
  funding_rate : Option ℚ := none
  open_interest : Option ℚ := none
  basis : Option ℚ := none
  markout : Option ℚ := none
  spread : Option ℚ := none
  updated_ms : ℤ
deriving Repr, DecidableEq

/-- `MarketStore._calc_basis`: `mark - index` when both present. -/
def calcBasis (mark index : Option ℚ) : Option ℚ :=
  match mark, index with
  | some m, some i => some (m - i)
  | _, _ => none

/-- `MarketStore._calc_markout`: `mid - last` when both present. -/
def calcMarkout (mid last : Option ℚ) : Option ℚ :=
  match mid, last with
  | some m, some l => some (m - l)
  | _, _ => none

/-- Collect a field name into the changed set when its flag is set. -/
def addIf (b : Bool) (name : String) (s : Finset String) : Finset String :=
  if b then insert name s else s

/-- `MarketStore._apply_stats`: merge a stats body into a row, returning the
merged row and the set of changed field names.  Stats fields are sticky
(`_update_if_not_none`); `basis` and `markout` are recomputed from the
post-merge values (`_calc_basis` / `_calc_markout` read the mutated target). -/
def applyStats (t : MarketRow) (s : MarketStatsBody) : MarketRow × Finset String :=
  let lp := updateIfNotNone t.last_price s.last_trade_price
  let mp := updateIfNotNone t.mark_price s.mark_price
  let ip := updateIfNotNone t.index_price s.index_price
  let oi := updateIfNotNone t.open_interest s.open_interest
  let fr := updateIfNotNone t.funding_rate s.effectiveFundingRate
  let dv := updateIfNotNone t.daily_volume s.effectiveDailyVolume
  let bs := assignOptional t.basis (calcBasis mp.1 ip.1)
  let mo := assignOptional t.markout (calcMarkout t.mid_price lp.1)
  let row := { t with last_price := lp.1, mark_price := mp.1, index_price := ip.1,
                      open_interest := oi.1, funding_rate := fr.1, daily_volume := dv.1,
                      basis := bs.1, markout := mo.1 }
  let changed :=
    addIf lp.2 "last_price" (addIf mp.2 "mark_price" (addIf ip.2 "index_price"
      (addIf oi.2 "open_interest" (addIf fr.2 "funding_rate" (addIf dv.2 "daily_volume"
        (addIf bs.2 "basis" (addIf mo.2 "markout" (∅ : Finset String))))))))
  (row, changed)

/-- `min(side, key=price)` — Python `min` keeps the first minimal element. -/
def minByPrice : List OrderLevel → Option OrderLevel
  | [] => none
  | l :: ls => some (ls.foldl (fun acc x => if x.price < acc.price then x else acc) l)

/-- `max(side, key=price)` — Python `max` keeps the first maximal element. -/
def maxByPrice : List OrderLevel → Option OrderLevel
  | [] => none
  | l :: ls => some (ls.foldl (fun acc x => if acc.price < x.price then x else acc) l)

/-- `MarketStore._apply_order_book`: set best ask/bid (clearing a side when its
level list is empty), then `mid_price` and `spread` (spread only when both
sides are present and the freshly computed mid is non-zero), then recompute
`markout` from the post-assignment `mid_price`. -/
def applyBookFields (t : MarketRow) (asks bids : List OrderLevel) :
    MarketRow × Finset String :=
  let bestAsk := minByPrice asks
  let bestBid := maxByPrice bids
  let ap := assignOptional t.best_ask_price (bestAsk.map OrderLevel.price)
  let asz := assignOptional t.best_ask_size (bestAsk.map OrderLevel.size)
  let bp := assignOptional t.best_bid_price (bestBid.map OrderLevel.price)
  let bsz := assignOptional t.best_bid_size (bestBid.map OrderLevel.size)
  let ms : Option ℚ × Option ℚ :=
    match bestAsk, bestBid with
    | some a, some b =>
      let mid := (a.price + b.price) / 2
      (some mid, if mid = 0 then none else some ((a.price - b.price) / mid * 10000))
    | _, _ => (none, none)
  let mid := assignOptional t.mid_price ms.1
  let spr := assignOptional t.spread ms.2
  let mo := assignOptional t.markout (calcMarkout mid.1 t.last_price)
  let row := { t with best_ask_price := ap.1, best_ask_size := asz.1,
                      best_bid_price := bp.1, best_bid_size := bsz.1,
                      mid_price := mid.1, spread := spr.1, markout := mo.1 }
  let changed :=
    addIf ap.2 "best_ask_price" (addIf asz.2 "best_ask_size"
      (addIf bp.2 "best_bid_price" (addIf bsz.2 "best_bid_size"
        (addIf mid.2 "mid_price" (addIf spr.2 "spread"
          (addIf mo.2 "markout" (∅ : Finset String)))))))
  (row, changed)

/-- `int()` of a non-empty decimal-digit string. -/
def digitsToNat (ds : List Char) : ℕ :=
  ds.foldl (fun a c => a * 10 + (c.toNat - 48)) 0

/-- `MarketStore._extract_market_id`: the regex `(\d+)$` matches the maximal
trailing run of decimal digits; no trailing digit yields `None`. -/
def extractMarketId (channel : String) : Option ℤ :=
  let tr := (channel.toList.reverse.takeWhile Char.isDigit).reverse
  if tr.isEmpty then none else some (digitsToNat tr : ℤ)

/-! ### Store state and operations (`store.py`) -/

/-- Association-list lookup (Python dict read). -/
def lookupA {β : Type} : List (ℤ × β) → ℤ → Option β
  | [], _ => none
  | (k, v) :: rest, key => if k = key then some v else lookupA rest key

/-- Association-list write (Python dict write: replace in place or append). -/
def setAssoc {β : Type} : List (ℤ × β) → ℤ → β → List (ℤ × β)
  | [], key, v => [(key, v)]
  | (k, w) :: rest, key, v =>
    if k = key then (key, v) :: rest else (k, w) :: setAssoc rest key v

/-- Association-list removal (Python `dict.pop`). -/
def eraseKey {β : Type} : List (ℤ × β) → ℤ → List (ℤ × β)
  | [], _ => []
  | (k, w) :: rest, key => if k = key then rest else (k, w) :: eraseKey rest key

/-- A sparse update published to the bus: the latest row plus the accumulated
changed-field set (the wire payload is the restriction of the row to those
keys). -/
structure SparseUpdate where
  row : MarketRow
  fields : Finset String
deriving DecidableEq

structure StoreState where
  rows : List (ℤ × MarketRow)
  lastPublish : List (ℤ × ℚ)
  pending : List (ℤ × (MarketRow × Finset String))
  flushTasks : List ℤ
  debounce : ℚ
  metadata : List (ℤ × String)
deriving DecidableEq

/-- The per-market debounce interval chosen by `MarketStore.__init__`:
`max(settings.ui_debounce_seconds, 0.05)`. -/
def storeDebounce (uiDebounceSeconds : ℚ) : ℚ := max uiDebounceSeconds (1/20)

/-- `MarketStore.__init__`. -/
def initStore (uiDebounceSeconds : ℚ) (metadata : List (ℤ × String)) : StoreState :=
  { rows := [], lastPublish := [], pending := [], flushTasks := [],
    debounce := storeDebounce uiDebounceSeconds, metadata := metadata }

/-- `int(time.time() * 1000)` with `time.time()` passed in explicitly. -/
def nowMs (t : ℚ) : ℤ := ⌊t * 1000⌋

/-- The keys of the row dict (`existing.keys()` in `apply_market_stats`). -/
def allFieldNames : Finset String :=
  {"market_id", "symbol", "best_bid_price", "best_bid_size", "best_ask_price",
   "best_ask_size", "last_price", "mark_price", "index_price", "mid_price",
   "daily_volume", "funding_rate", "open_interest", "basis", "markout",
   "spread", "updated_ms"}

/-- `MarketStore._fresh_row`. -/
def freshRow (s : StoreState) (mid : ℤ) (t : ℚ) : MarketRow :=
  { market_id := mid, symbol := lookupA s.metadata mid, updated_ms := nowMs t }

/-- `MarketStore._emit`: drain the pending cell, stamp `last_publish`, publish
one sparse update. -/
def emitStore (s : StoreState) (mid : ℤ) (t : ℚ) : StoreState × List SparseUpdate :=
  match lookupA s.pending mid with
  | none => (s, [])
  | some pu =>
    ({ s with pending := eraseKey s.pending mid,
              lastPublish := setAssoc s.lastPublish mid t },
     [⟨pu.1, pu.2⟩])

/-- `MarketStore._schedule_publish`: fold the changed-field set into the pending
cell, emit synchronously when the debounce window has elapsed, otherwise leave
a flush task scheduled. -/
def schedulePublish (s : StoreState) (row : MarketRow) (fields0 : Finset String)
    (t : ℚ) : StoreState × List SparseUpdate :=
  if fields0 = ∅ then (s, [])
  else
    let mid := row.market_id
    let fields1 := insert "market_id" fields0
    let fields2 :=
      match lookupA s.pending mid with
      | some pu => fields1 ∪ pu.2
      | none => fields1
    let s1 := { s with pending := setAssoc s.pending mid (row, fields2) }
    let last := (lookupA s1.lastPublish mid).getD 0
    if s1.debounce ≤ t - last then emitStore s1 mid t
    else if mid ∈ s1.flushTasks then (s1, [])
    else ({ s1 with flushTasks := mid :: s1.flushTasks }, [])

/-- `MarketStore.apply_market_stats`: merge, seed every field as changed for a
new row, return `None` (leaving the state untouched) when nothing changed,
otherwise store the re-stamped row and publish. -/
def applyMarketStats (s : StoreState) (msg : MarketStatsMsg) (t : ℚ) :
    StoreState × Option MarketRow × List SparseUpdate :=
  let stats := msg.market_stats
  let prior := lookupA s.rows stats.market_id
  let existing := prior.getD (freshRow s stats.market_id t)
  let merged := applyStats existing stats
  let changed := if prior = none then merged.2 ∪ allFieldNames else merged.2
  if changed = ∅ then (s, none, [])
  else
    let newRow := { merged.1 with updated_ms := nowMs t }
    let changed1 := insert "updated_ms" changed
    let s1 := { s with rows := setAssoc s.rows stats.market_id newRow }
    let res := schedulePublish s1 newRow changed1 t
    (res.1, some newRow, res.2)

/-- `MarketStore.apply_order_book`: extract the market id from the channel
(returning `None` with no effect when absent), merge the book sides, and store
and publish as for stats. -/
def applyOrderBook (s : StoreState) (msg : OrderBookMsg) (t : ℚ) :
    StoreState × Option MarketRow × List SparseUpdate :=
  match extractMarketId msg.channel with
  | none => (s, none, [])
  | some mid =>
    let prior := lookupA s.rows mid
    let existing := prior.getD (freshRow s mid t)
    let merged := applyBookFields existing msg.order_book.asks msg.order_book.bids
    let changed := if prior = none then merged.2 ∪ allFieldNames else merged.2
    if changed = ∅ then (s, none, [])
    else
      let newRow := { merged.1 with updated_ms := nowMs t }
      let changed1 := insert "updated_ms" changed
      let s1 := { s with rows := setAssoc s.rows mid newRow }
      let res := schedulePublish s1 newRow changed1 t
      (res.1, some newRow, res.2)

/-- One store mutation together with its wall-clock instant. -/
inductive StoreOp where
  | stats (msg : MarketStatsMsg) (t : ℚ)
  | book (msg : OrderBookMsg) (t : ℚ)
deriving Repr

def stepStore (s : StoreState) : StoreOp → StoreState
  | .stats m t => (applyMarketStats s m t).1
  | .book m t => (applyOrderBook s m t).1

def runOps (s : StoreState) (ops : List StoreOp) : StoreState :=
  ops.foldl stepStore s

/-! ### Bus (`bus.py`) -/

/-- `bus.py` module level: `QUEUE_SIZE = 512 if settings.ui_debounce_seconds <= 0
else 128`. -/
def QUEUE_SIZE (uiDebounceSeconds : ℚ) : ℕ :=
  if uiDebounceSeconds ≤ 0 then 512 else 128

/-- `UpdateBus.publish` restricted to one subscriber queue of capacity `cap`
(front of the list is the oldest element): `put_nowait`; on `QueueFull`,
`get_nowait` the oldest (a no-op when the queue is empty) and `put_nowait`
again, giving up on a second `QueueFull`. -/
def publishToQueue {α : Type} (cap : ℕ) (q : List α) (m : α) : List α :=
  if q.length < cap then q ++ [m]
  else
    let q1 := q.drop 1
    if q1.length < cap then q1 ++ [m] else q1

/-- The queue contents a subscriber holds after a sequence of publishes starting
from the empty queue handed out by `UpdateBus.subscribe`. -/
def publishSeq {α : Type} (cap : ℕ) (ms : List α) : List α :=
  ms.foldl (publishToQueue cap) []

/-! ### Sender (`ws_client._sender`) -/

/-- One iteration of the `_sender` loop in `ws_client.py`, for a non-empty
outbound queue (capacity `cap`; the head of the list is the next message
dequeued; the shutdown `None` sentinel is out of scope here).  `sendOk` tells
whether `ws.send` succeeds for a message.  Returns the remaining queue and
`true` when the session continues; on a send failure the consumed message is
re-enqueued with `put_nowait` (appended at the tail, silently dropped when the
queue is full) and the exception re-raised, so the result flag is `false`:
the session is torn down and the surrounding loop reconnects. -/
def senderStep {α : Type} (cap : ℕ) (sendOk : α → Bool) :
    List α → Option (List α × Bool)
  | [] => none
  | m :: rest =>
    if sendOk m then some (rest, true)
    else some (if rest.length < cap then rest ++ [m] else rest, false)

/-! ### Numeric coercion and message parsing (`dto.py`)

JSON values already decoded from the frame (`orjson.loads`), with numbers as
exact rationals.  `float()` on a string is modelled as an exact decimal parser
(optional sign, integer and fractional digit runs around an optional dot, an
optional integer exponent); the special forms `inf`/`nan`/underscores never
occur on this feed and are treated as unparsable. -/

inductive Json where
  | null
  | num (q : ℚ)
  | str (s : String)
  | jbool (b : Bool)
  | arr (xs : List Json)
  | obj (fields : List (String × Json))

/-- Dict read on a decoded JSON object (`payload.get(key)`). -/
def getJField : List (String × Json) → String → Option Json
  | [], _ => none
  | (k, v) :: rest, key => if k = key then some v else getJField rest key

/-- Consume an optional leading sign. -/
def takeSign : List Char → ℤ × List Char
  | '+' :: rest => (1, rest)
  | '-' :: rest => (-1, rest)
  | cs => (1, cs)

/-- Parse the characters after `e`/`E`: a signed digit run ending the string. -/
def parseExpPart (cs : List Char) : Option ℤ :=
  let sg := takeSign cs
  let ds := sg.2.takeWhile Char.isDigit
  let rest := sg.2.dropWhile Char.isDigit
  if ds.isEmpty ∨ ¬ rest.isEmpty then none
  else some (sg.1 * (digitsToNat ds : ℤ))

/-- `float(s)` on a stripped, non-empty string, as an exact rational. -/
def pyFloat (s : String) : Option ℚ :=
  let p := takeSign s.toList
  let ip := p.2.takeWhile Char.isDigit
  let cs2 := p.2.dropWhile Char.isDigit
  let frac : List Char × List Char :=
    match cs2 with
    | '.' :: rest => (rest.takeWhile Char.isDigit, rest.dropWhile Char.isDigit)
    | _ => ([], cs2)
  if ip.isEmpty ∧ frac.1.isEmpty then none
  else
    let mant : ℚ := (digitsToNat ip : ℚ) + (digitsToNat frac.1 : ℚ) / (10 : ℚ) ^ frac.1.length
    let signed : ℚ := (p.1 : ℚ) * mant
    match frac.2 with
    | [] => some signed
    | c :: rest =>
      if c = 'e' ∨ c = 'E' then
        match parseExpPart rest with
        | some e => some (signed * (10 : ℚ) ^ e)
        | none => none
      else none

/-- Python `str.strip()`: drop leading and trailing whitespace (structural
`List Char` implementation, so that concrete instances evaluate). -/
def pyStrip (s : String) : String :=
  ⟨((s.toList.dropWhile Char.isWhitespace).reverse.dropWhile Char.isWhitespace).reverse⟩

/-- `_coerce_float`: `None` passes through, numbers (and `bool`, an `int`
subtype in Python) coerce, strings are stripped — empty means `None`,
otherwise `float()` with a raised invalid-value error on failure — and any
other shape raises an unsupported-type error. -/
def coerceFloat : Json → Except String (Option ℚ)
  | .null => .ok none
  | .num q => .ok (some q)
  | .jbool b => .ok (some (if b then 1 else 0))
  | .str s =>
    let sT := pyStrip s
    if sT = "" then .ok none
    else
      match pyFloat sT with
      | some q => .ok (some q)
      | none => .error ("invalid float value: " ++ sT)
  | _ => .error "unsupported type for float coercion"

/-- `MarketStatsBody._parse_optional_float`: lenient — a raised coercion error
becomes `None`. -/
def parseOptionalFloat (j : Json) : Option ℚ :=
  match coerceFloat j with
  | .ok v => v
  | .error _ => none

/-- `OrderLevel._parse_float`: strict — `None` (and hence the empty string) is
rejected and coercion errors propagate, failing the level. -/
def parseLevelField (j : Json) : Except String ℚ :=
  match coerceFloat j with
  | .ok (some q) => .ok q
  | .ok none => .error "price/size cannot be null"
  | .error e => .error e

/-- Validate one `OrderLevel` from a JSON object with required `price` and
`size` keys (extra keys ignored). -/
def parseOrderLevel : Json → Except String OrderLevel
  | .obj fs =>
    match getJField fs "price", getJField fs "size" with
    | some pj, some sj => do
      let p ← parseLevelField pj
      let s ← parseLevelField sj
      .ok ⟨p, s⟩
    | _, _ => .error "field required"
  | _ => .error "value is not a valid dict"

/-- Validate each level in order; the first failing level fails the list. -/
def parseLevelList : List Json → Except String (List OrderLevel)
  | [] => .ok []
  | j :: rest => do
    let l ← parseOrderLevel j
    let ls ← parseLevelList rest
    .ok (l :: ls)

/-- Validate a list of levels; any failing level fails the list. -/
def parseLevels : Json → Except String (List OrderLevel)
  | .arr xs => parseLevelList xs
  | _ => .error "value is not a valid list"

/-- Validate `OrderBookPayload`: `asks`/`bids` default to `[]` when missing. -/
def parseBookPayload : Json → Except String OrderBookPayload
  | .obj fs => do
    let asks ← match getJField fs "asks" with
      | none => Except.ok []
      | some j => parseLevels j
    let bids ← match getJField fs "bids" with
      | none => Except.ok []
      | some j => parseLevels j
    .ok ⟨asks, bids⟩
  | _ => .error "value is not a valid dict"

/-- Validate `OrderBookMsg` from the payload object (the `type` discriminator
was already checked by `parse_ws_message`). -/
def parseOrderBookMsg (fs : List (String × Json)) : Except String OrderBookMsg := do
  let ch ← match getJField fs "channel" with
    | some (.str c) => Except.ok c
    | _ => Except.error "channel must be a string"
  let ob ← match getJField fs "order_book" with
    | some j => parseBookPayload j
    | none => Except.error "field required"
  .ok ⟨ch, ob⟩

/-- Validate the required integer `market_id` (numeric JSON form). -/
def parseIntField (j : Json) : Except String ℤ :=
  match j with
  | .num q => if q.den = 1 then .ok q.num else .error "value is not a valid integer"
  | _ => .error "value is not a valid integer"

/-- Validate `MarketStatsBody`: required `market_id`, the eight numeric fields
lenient and defaulting to `None` when missing. -/
def parseStatsBody : Json → Except String MarketStatsBody
  | .obj fs => do
    let midJ ← match getJField fs "market_id" with
      | some j => Except.ok j
      | none => Except.error "field required"
    let mid ← parseIntField midJ
    .ok { market_id := mid,
          index_price := parseOptionalFloat ((getJField fs "index_price").getD .null),
          mark_price := parseOptionalFloat ((getJField fs "mark_price").getD .null),
          open_interest := parseOptionalFloat ((getJField fs "open_interest").getD .null),
          last_trade_price := parseOptionalFloat ((getJField fs "last_trade_price").getD .null),
          current_funding_rate := parseOptionalFloat ((getJField fs "current_funding_rate").getD .null),
          funding_rate := parseOptionalFloat ((getJField fs "funding_rate").getD .null),
          daily_base_token_volume := parseOptionalFloat ((getJField fs "daily_base_token_volume").getD .null),
          daily_quote_token_volume := parseOptionalFloat ((getJField fs "daily_quote_token_volume").getD .null) }
  | _ => .error "value is not a valid dict"

/-- Validate `MarketStatsMsg` from the payload object. -/
def parseMarketStatsMsg (fs : List (String × Json)) : Except String MarketStatsMsg := do
  let ch ← match getJField fs "channel" with
    | some (.str c) => Except.ok c
    | _ => Except.error "channel must be a string"
  let body ← match getJField fs "market_stats" with
    | some j => parseStatsBody j
    | none => Except.error "field required"
  .ok ⟨ch, body⟩

inductive WsMessage where
  | orderBook (m : OrderBookMsg)
  | marketStats (m : MarketStatsMsg)

/-- `parse_ws_message`: dispatch on the `type` key; anything other than the two
update variants raises an unsupported-message-type error. -/
def parseWsMessage (payload : List (String × Json)) : Except String WsMessage :=
  match getJField payload "type" with
  | some (.str t) =>
    if t = "update/order_book" then (parseOrderBookMsg payload).map .orderBook
    else if t = "update/market_stats" then (parseMarketStatsMsg payload).map .marketStats
    else .error ("unsupported message type: " ++ t)
  | _ => .error "unsupported message type"

/-! ### Analytics (`analytics.py`) -/

/-- Python dict construction from an iteration of key/value pairs: later keys
overwrite earlier ones in place. -/
def toDict {β : Type} (l : List (ℤ × β)) : List (ℤ × β) :=
  l.foldl (fun d kv => setAssoc d kv.1 kv.2) []

/-- `compute_cross_sectional_zscores`: collect `(market_id, funding_rate)` over
rows with a non-null funding rate; below `min_assets_per_time`, or when the
population standard deviation (divisor `max(count - ddof, 1)`) is zero, every
row maps to `None`; otherwise non-null rows map to `(f - mean)/std`. -/
noncomputable def computeZscores (rows : List MarketRow) (minAssetsPerTime : ℕ)
    (ddof : ℕ) : List (ℤ × Option ℝ) :=
  let fundingValues : List (ℤ × ℝ) :=
    rows.filterMap (fun r => r.funding_rate.map (fun f => (r.market_id, (Rat.cast f : ℝ))))
  let count := fundingValues.length
  if count < minAssetsPerTime then
    toDict (rows.map (fun r => (r.market_id, (none : Option ℝ))))
  else
    let mean : ℝ := ((fundingValues.map Prod.snd).sum) / count
    let varianceSum : ℝ := ((fundingValues.map (fun p => (p.2 - mean) ^ 2)).sum)
    let divisor : ℕ := max (count - ddof) 1
    let std : ℝ := Real.sqrt (varianceSum / divisor)
    if std ≤ 0 then
      toDict (rows.map (fun r => (r.market_id, (none : Option ℝ))))
    else
      toDict (rows.map (fun r =>
        (r.market_id, r.funding_rate.map (fun f => ((Rat.cast f : ℝ) - mean) / std))))

/-- One row of the published funding snapshot payload. -/
structure SnapRow where
  market_id : ℤ
  symbol : String
  funding_rate : Option ℚ
  open_interest : Option ℚ
  zscore : Option ℝ

/-- `FundingSnapshot` (`analytics.py` dataclass). -/
structure FundingSnapshot where
  timestamp_ms : ℤ
  rows : List SnapRow

/-- A message published to the funding bus:
`{type: "snapshot", timestamp: now_ms, rows: ...}`. -/
inductive FundingBusMsg where
  | snapshot (timestamp : ℤ) (rows : List SnapRow)

/-- The mutable state of `FundingAnalytics` relevant here: the cached latest
snapshot. -/
structure AnalyticsState where
  latest : Option FundingSnapshot

/-- The per-row sort key of `_compute_and_publish`:
`(inf if z is None else -z, -(open_interest or 0.0), market_id)`, with the
infinity encoded in a leading discriminant. -/
noncomputable def snapSortKey (zs : List (ℤ × Option ℝ)) (r : MarketRow) :
    ℕ × ℝ × ℝ × ℤ :=
  let oiKey : ℝ := -(((r.open_interest).getD 0 : ℚ) : ℝ)
  match (lookupA zs r.market_id).join with
  | none => (1, 0, oiKey, r.market_id)
  | some z => (0, -z, oiKey, r.market_id)

/-- Lexicographic comparison of sort keys (Python tuple ordering). -/
def snapKeyLe (a b : ℕ × ℝ × ℝ × ℤ) : Prop :=
  a.1 < b.1 ∨ (a.1 = b.1 ∧ (a.2.1 < b.2.1 ∨ (a.2.1 = b.2.1 ∧
    (a.2.2.1 < b.2.2.1 ∨ (a.2.2.1 = b.2.2.1 ∧ a.2.2.2 ≤ b.2.2.2)))))

noncomputable def snapKeyLeB (a b : ℕ × ℝ × ℝ × ℤ) : Bool :=
  @decide (snapKeyLe a b) (Classical.propDecidable _)

/-- `row.for_wire()` symbol defaulting: `MKT-<id>` when `symbol` is `None`. -/
def wireSymbol (r : MarketRow) : String :=
  (r.symbol).getD ("MKT-" ++ toString r.market_id)

/-- `FundingAnalytics._compute_and_publish`: with no rows, cache and publish an
empty snapshot immediately; otherwise compute z-scores, order rows by the sort
key (Python `sorted`, stable), build the payload rows, cache the snapshot as
`latest` and publish it. -/
noncomputable def computeAndPublish (st : AnalyticsState) (rows : List MarketRow)
    (t : ℚ) (minAssets : ℕ) : AnalyticsState × List FundingBusMsg :=
  if rows.isEmpty then
    ({ st with latest := some ⟨nowMs t, []⟩ }, [.snapshot (nowMs t) []])
  else
    let zs := computeZscores rows minAssets 0
    let ordered := rows.mergeSort (fun a b => snapKeyLeB (snapSortKey zs a) (snapSortKey zs b))
    let payload : List SnapRow := ordered.map (fun r =>
      { market_id := r.market_id,
        symbol := wireSymbol r,
        funding_rate := r.funding_rate,
        open_interest := r.open_interest,
        zscore := (lookupA zs r.market_id).join })
    ({ st with latest := some ⟨nowMs t, payload⟩ }, [.snapshot (nowMs t) payload])

/-! ### General lemmas about the embedded operations -/

theorem almostEqualQ_refl (x : ℚ) : almostEqualQ x x = true := by
  simp only [almostEqualQ, sub_self, abs_zero, decide_eq_true_eq]
  exact le_max_of_le_right (by norm_num [absTol])

theorem lookupA_setAssoc_self {β : Type} (l : List (ℤ × β)) (k : ℤ) (v : β) :
    lookupA (setAssoc l k v) k = some v := by
  induction l with
  | nil => simp [setAssoc, lookupA]
  | cons hd tl ih =>
    obtain ⟨k', w⟩ := hd
    by_cases h : k' = k
    · simp [setAssoc, h, lookupA]
    · simp [setAssoc, h, lookupA, ih]

theorem lookupA_setAssoc_other {β : Type} (l : List (ℤ × β)) (k k' : ℤ) (v : β)
    (h : k' ≠ k) : lookupA (setAssoc l k v) k' = lookupA l k' := by
  induction l with
  | nil => simp [setAssoc, lookupA, Ne.symm h]
  | cons hd tl ih =>
    obtain ⟨k₀, w⟩ := hd
    by_cases h0 : k₀ = k
    · subst h0
      simp [setAssoc, lookupA, h, Ne.symm h]
    · simp [setAssoc, h0, lookupA, ih]


theorem lookupA_append {β : Type} (a b : List (ℤ × β)) (k : ℤ) :
    lookupA (a ++ b) k =
      match lookupA a k with
      | some v => some v
      | none => lookupA b k := by
  induction a with
  | nil => simp [lookupA]
  | cons hd tl ih =>
    obtain ⟨k₀, w⟩ := hd
    by_cases h : k₀ = k
    · simp [lookupA, h]
    · simp [lookupA, h, ih]

/-! ### C8: queue capacity versus debouncing -/

/-- C8, counterexample.  The claim ties capacity `512` to emissions not being
debounced; but with `ui_debounce_seconds = 0` the store still debounces every
market (interval `max(0, 0.05) = 0.05 > 0`) while `QUEUE_SIZE` is `512`, so
"capacity 128 whenever emissions are debounced" fails. -/
theorem c8_counterexample :
    ¬ (0 < (initStore 0 []).debounce → QUEUE_SIZE 0 = 128) := by
  intro h
  have h1 : (0 : ℚ) < (initStore 0 []).debounce := by
    show 0 < storeDebounce 0
    rw [storeDebounce]
    norm_num
  have h2 := h h1
  norm_num [QUEUE_SIZE] at h2

/-- C8, amended: subscriber queues are bounded with capacity `128` when
`ui_debounce_seconds > 0` and `512` otherwise, while the store debounces every
market with interval `max(ui_debounce_seconds, 0.05)`, which is positive in
both cases. -/
theorem c8_queue_capacity (ui : ℚ) (md : List (ℤ × String)) :
    QUEUE_SIZE ui = (if 0 < ui then 128 else 512) ∧
    (initStore ui md).debounce = max ui (1/20) ∧
    0 < (initStore ui md).debounce := by
  refine ⟨?_, rfl, ?_⟩
  · unfold QUEUE_SIZE
    rcases le_or_lt ui 0 with h | h
    · rw [if_pos h, if_neg (not_lt.mpr h)]
    · rw [if_neg (not_le.mpr h), if_pos h]
  · show 0 < storeDebounce ui
    exact lt_of_lt_of_le (by norm_num) (le_max_right ui (1/20))

/-! ### C9: order-book message without a trailing channel id -/

/-- C9: when the channel carries no trailing integer, `apply_order_book`
returns `None` and the store is byte-for-byte unchanged: no row, no pending
update, no flush task, and nothing published. -/
theorem c9_book_without_channel_id (s : StoreState) (msg : OrderBookMsg) (t : ℚ)
    (h : extractMarketId msg.channel = none) :
    applyOrderBook s msg t = (s, none, []) := by
  unfold applyOrderBook
  rw [h]

theorem c9_witness :
    extractMarketId "order_book/" = none ∧
    applyOrderBook (initStore (1/5) []) ⟨"order_book/", ⟨[⟨1, 1⟩], [⟨1, 1⟩]⟩⟩ 3 =
      (initStore (1/5) [], none, []) :=
  ⟨by decide, c9_book_without_channel_id _ _ _ (by decide)⟩

/-! ### C5: send failure handling in the sender loop -/

/-- C5, counterexample.  The claim says a message whose write fails is
re-inserted at the HEAD of the outbound queue, making it the next message
dequeued.  The code re-enqueues with `put_nowait`, which appends at the TAIL:
failing to send `10` from the queue `[10, 20]` leaves `[20, 10]`, whose next
dequeued element is `20`, not `10`. -/
theorem c5_counterexample :
    senderStep 1024 (fun _ => false) [10, 20] = some ([20, 10], false) ∧
    [20, 10].head? ≠ some 10 := by
  constructor
  · rfl
  · decide

/-- C5, amended: on a mid-session write failure the sender re-inserts the
failed message at the TAIL of the outbound queue (best effort: dropped when
the queue is full), and the raised exception tears the session down to trigger
reconnect (the continuation flag is `false`). -/
theorem c5_send_failure_requeues_tail {α : Type} (cap : ℕ) (sendOk : α → Bool)
    (m : α) (rest : List α) (hfail : sendOk m = false) :
    senderStep cap sendOk (m :: rest) =
      some ((if rest.length < cap then rest ++ [m] else rest), false) := by
  simp [senderStep, hfail]

theorem c5_witness :
    senderStep 1024 (fun _ => false) [(7 : ℤ), 8] = some ([8, 7], false) := by
  have h := c5_send_failure_requeues_tail 1024 (fun _ : ℤ => false) 7 [8] rfl
  simpa using h

/-! ### C2: newest-wins backpressure on a subscriber queue -/

theorem publishToQueue_of_bounded {α : Type} (cap : ℕ) (hc : 1 ≤ cap) (q : List α)
    (m : α) (hq : q.length ≤ cap) :
    publishToQueue cap q m = (if q.length < cap then q else q.drop 1) ++ [m] := by
  unfold publishToQueue
  by_cases h : q.length < cap
  · simp [h]
  · have hlen : q.length = cap := le_antisymm hq (not_lt.mp h)
    have hdrop : (q.drop 1).length < cap := by
      rw [List.length_drop, hlen]
      omega
    simp only [if_neg h, if_pos hdrop]

theorem publishToQueue_length_le {α : Type} (cap : ℕ) (hc : 1 ≤ cap) (q : List α)
    (m : α) (hq : q.length ≤ cap) : (publishToQueue cap q m).length ≤ cap := by
  rw [publishToQueue_of_bounded cap hc q m hq]
  by_cases h : q.length < cap
  · simp only [if_pos h, List.length_append, List.length_cons, List.length_nil]
    omega
  · simp only [if_neg h, List.length_append, List.length_drop, List.length_cons,
      List.length_nil]
    omega

theorem publishFold_length_le {α : Type} (cap : ℕ) (hc : 1 ≤ cap) (ms : List α) :
    ∀ q : List α, q.length ≤ cap → (ms.foldl (publishToQueue cap) q).length ≤ cap := by
  induction ms with
  | nil => intro q hq; simpa using hq
  | cons m ms ih =>
    intro q hq
    exact ih _ (publishToQueue_length_le cap hc q m hq)

/-- C2: the bus drop policy is newest-wins.  When a publish finds the
subscriber's bounded queue full it removes the oldest queued message and
enqueues the new one; consequently, after any finite sequence of publishes
ending with `m` (starting from the empty queue handed out by `subscribe`),
draining the queue dequeues `m` last. -/
theorem c2_newest_wins {α : Type} (cap : ℕ) (hc : 1 ≤ cap) (ms : List α) (m : α)
    (q : List α) (hq : q.length = cap) :
    publishToQueue cap q m = q.drop 1 ++ [m] ∧
    (publishSeq cap (ms ++ [m])).getLast? = some m := by
  constructor
  · rw [publishToQueue_of_bounded cap hc q m (le_of_eq hq)]
    have : ¬ q.length < cap := by omega
    simp [this]
  · unfold publishSeq
    rw [List.foldl_append]
    simp only [List.foldl_cons, List.foldl_nil]
    rw [publishToQueue_of_bounded cap hc _ m
      (publishFold_length_le cap hc ms [] (by simp))]
    exact List.getLast?_concat _

theorem c2_witness :
    publishToQueue 2 [8, 9] 4 = [9, 4] ∧
    (publishSeq 2 [1, 2, 3, 4]).getLast? = some 4 := by
  have h := c2_newest_wins 2 (by decide) [1, 2, 3] (4 : ℕ) [8, 9] (by decide)
  simpa using h

/-! ### C10: empty-store analytics cycle -/

/-- C10: with no rows in the store, an analytics cycle still caches and
publishes the empty snapshot `{type: "snapshot", timestamp: now_ms, rows: []}`,
so a subscriber connecting before any market is seen can bootstrap from it. -/
theorem c10_empty_snapshot (st : AnalyticsState) (rows : List MarketRow) (t : ℚ)
    (minAssets : ℕ) (h : rows = []) :
    computeAndPublish st rows t minAssets =
      ({ latest := some ⟨nowMs t, []⟩ }, [.snapshot (nowMs t) []]) := by
  subst h
  simp [computeAndPublish]

theorem c10_witness :
    computeAndPublish ⟨none⟩ [] 2 3 = (⟨some ⟨2000, []⟩⟩, [.snapshot 2000 []]) := by
  have h := c10_empty_snapshot ⟨none⟩ [] 2 3 rfl
  have hms : nowMs 2 = 2000 := by norm_num [nowMs]
  rw [h, hms]

/-! ### C7: numeric coercion and message-type dispatch -/

/-- C7: a JSON number coerces to that value and a decimal string to the float
it denotes; an empty (or all-whitespace) string coerces to null; an unparsable
string is treated leniently in a market-stats field (null) but strictly in an
order-book level price or size (parsing the whole message fails with the
invalid-value error); and a payload whose `type` is neither of the two update
variants fails with an unsupported-message-type error. -/
theorem c7_numeric_coercion (qn q : ℚ) (sGood sEmpty sBad : String)
    (ch ty : String) (rest : List (String × Json))
    (hGood : pyFloat (pyStrip sGood) = some q)
    (hEmpty : pyStrip sEmpty = "")
    (hBadNe : pyStrip sBad ≠ "")
    (hBad : pyFloat (pyStrip sBad) = none)
    (hTy1 : ty ≠ "update/order_book") (hTy2 : ty ≠ "update/market_stats") :
    coerceFloat (.num qn) = .ok (some qn) ∧
    coerceFloat (.str sGood) = .ok (some q) ∧
    coerceFloat (.str sEmpty) = .ok none ∧
    parseOptionalFloat (.str sBad) = none ∧
    parseWsMessage [("type", .str "update/order_book"), ("channel", .str ch),
      ("order_book", .obj [("asks", .arr [.obj [("price", .str sBad), ("size", .num 1)]]),
                           ("bids", .arr [])])] =
      .error ("invalid float value: " ++ pyStrip sBad) ∧
    parseWsMessage (("type", .str ty) :: rest) =
      .error ("unsupported message type: " ++ ty) := by
  have hGext : pyStrip sGood ≠ "" := by
    intro hh
    rw [hh] at hGood
    rw [show pyFloat "" = none from rfl] at hGood
    exact Option.noConfusion hGood
  refine ⟨rfl, ?_, ?_, ?_, ?_, ?_⟩
  · simp [coerceFloat, hGext, hGood]
  · simp [coerceFloat, hEmpty]
  · simp [parseOptionalFloat, coerceFloat, hBadNe, hBad]
  · simp [parseWsMessage, getJField, parseOrderBookMsg, parseBookPayload, parseLevels,
      parseLevelList, parseOrderLevel, parseLevelField, coerceFloat, hBadNe, hBad,
      Except.bind, Except.map, bind, Functor.map]
  · simp [parseWsMessage, getJField, hTy1, hTy2]

unseal Rat.mul Rat.inv Rat.add Rat.sub in
theorem c7_witness :
    coerceFloat (.num (5/2)) = .ok (some (5/2)) ∧
    coerceFloat (.str " 3.5 ") = .ok (some (7/2)) ∧
    coerceFloat (.str "  ") = .ok none ∧
    parseOptionalFloat (.str "abc") = none ∧
    parseWsMessage [("type", .str "update/order_book"), ("channel", .str "order_book:3"),
      ("order_book", .obj [("asks", .arr [.obj [("price", .str "abc"), ("size", .num 1)]]),
                           ("bids", .arr [])])] =
      .error ("invalid float value: " ++ pyStrip "abc") ∧
    parseWsMessage [("type", .str "unknown"), ("channel", .str "noop")] =
      .error ("unsupported message type: " ++ "unknown") := by
  exact c7_numeric_coercion (5/2) (7/2) " 3.5 " "  " "abc" "order_book:3" "unknown"
    [("channel", .str "noop")] (by decide) (by decide) (by decide) (by decide)
    (by decide) (by decide)

/-! ### C3: sticky stats fields, cleared book fields -/

theorem assignOptional_none_val (c : Option ℚ) : (assignOptional c none).1 = none := by
  cases c <;> rfl

theorem assignOptional_none_flag (c : Option ℚ)
    (h : (assignOptional c none).2 = false) : c = none := by
  cases c with
  | none => rfl
  | some v => simp [assignOptional] at h

theorem schedulePublish_rows (s : StoreState) (row : MarketRow) (f : Finset String)
    (t : ℚ) : (schedulePublish s row f t).1.rows = s.rows := by
  unfold schedulePublish
  by_cases h0 : f = ∅
  · simp only [if_pos h0]
  · simp only [if_neg h0]
    by_cases h1 : s.debounce ≤ t - (lookupA s.lastPublish row.market_id).getD 0
    · simp only [if_pos h1]
      unfold emitStore
      cases hl : lookupA (setAssoc s.pending row.market_id
          (row, match lookupA s.pending row.market_id with
                | some pu => insert "market_id" f ∪ pu.2
                | none => insert "market_id" f)) row.market_id <;> simp [hl]
    · simp only [if_neg h1]
      by_cases h2 : row.market_id ∈ s.flushTasks <;> simp [h2]

theorem applyBookFields_empty_asks (t : MarketRow) (bids : List OrderLevel) :
    (applyBookFields t [] bids).1.best_ask_price = none ∧
    (applyBookFields t [] bids).1.best_ask_size = none ∧
    (applyBookFields t [] bids).1.mid_price = none ∧
    (applyBookFields t [] bids).1.spread = none := by
  refine ⟨?_, ?_, ?_, ?_⟩ <;>
    simp [applyBookFields, minByPrice, assignOptional_none_val]

theorem applyBookFields_empty_bids (t : MarketRow) (asks : List OrderLevel) :
    (applyBookFields t asks []).1.best_bid_price = none ∧
    (applyBookFields t asks []).1.best_bid_size = none ∧
    (applyBookFields t asks []).1.mid_price = none ∧
    (applyBookFields t asks []).1.spread = none := by
  cases asks with
  | nil =>
    refine ⟨?_, ?_, ?_, ?_⟩ <;>
      simp [applyBookFields, minByPrice, maxByPrice, assignOptional_none_val]
  | cons a as =>
    refine ⟨?_, ?_, ?_, ?_⟩ <;>
      simp [applyBookFields, minByPrice, maxByPrice, assignOptional_none_val]

theorem addIf_eq_empty {b : Bool} {n : String} {s : Finset String}
    (h : addIf b n s = ∅) : b = false ∧ s = ∅ := by
  cases b
  · exact ⟨rfl, h⟩
  · exact absurd h (by simp [addIf])

theorem applyStats_fields (t0 : MarketRow) (st : MarketStatsBody) :
    (applyStats t0 st).1.last_price =
      (updateIfNotNone t0.last_price st.last_trade_price).1 ∧
    (applyStats t0 st).1.mark_price =
      (updateIfNotNone t0.mark_price st.mark_price).1 ∧
    (applyStats t0 st).1.index_price =
      (updateIfNotNone t0.index_price st.index_price).1 ∧
    (applyStats t0 st).1.open_interest =
      (updateIfNotNone t0.open_interest st.open_interest).1 ∧
    (applyStats t0 st).1.funding_rate =
      (updateIfNotNone t0.funding_rate st.effectiveFundingRate).1 ∧
    (applyStats t0 st).1.daily_volume =
      (updateIfNotNone t0.daily_volume st.effectiveDailyVolume).1 :=
  ⟨rfl, rfl, rfl, rfl, rfl, rfl⟩

/-- After `apply_market_stats` on a pre-existing row, the stored row is either
the untouched old row (no change detected) or the merged row re-stamped with
`updated_ms`. -/
theorem applyMarketStats_stored_row (s : StoreState) (msg : MarketStatsMsg) (t : ℚ)
    (row row' : MarketRow)
    (hrow : lookupA s.rows msg.market_stats.market_id = some row)
    (hrow' : lookupA (applyMarketStats s msg t).1.rows msg.market_stats.market_id =
      some row') :
    row' = row ∨
    row' = { (applyStats row msg.market_stats).1 with updated_ms := nowMs t } := by
  simp only [applyMarketStats, hrow, Option.getD_some, reduceCtorEq, if_false] at hrow'
  split at hrow'
  · left
    rw [hrow] at hrow'
    exact (Option.some_inj.mp hrow').symm
  · right
    rw [schedulePublish_rows] at hrow'
    dsimp only at hrow'
    rw [lookupA_setAssoc_self] at hrow'
    exact (Option.some_inj.mp hrow').symm

/-- After `apply_order_book`, an empty incoming side leaves the corresponding
best price/size absent, and `mid_price`/`spread` absent. -/
theorem applyOrderBook_cleared_sides (bs : StoreState) (bmsg : OrderBookMsg) (u : ℚ)
    (bmid : ℤ) (brow : MarketRow)
    (hbmid : extractMarketId bmsg.channel = some bmid)
    (hbrow : lookupA (applyOrderBook bs bmsg u).1.rows bmid = some brow) :
    (bmsg.order_book.asks = [] →
      brow.best_ask_price = none ∧ brow.best_ask_size = none ∧
      brow.mid_price = none ∧ brow.spread = none) ∧
    (bmsg.order_book.bids = [] →
      brow.best_bid_price = none ∧ brow.best_bid_size = none ∧
      brow.mid_price = none ∧ brow.spread = none) := by
  have clearedA := applyBookFields_empty_asks
  have clearedB := applyBookFields_empty_bids
  cases hprior : lookupA bs.rows bmid with
  | none =>
    have hne : (applyBookFields (freshRow bs bmid u)
        bmsg.order_book.asks bmsg.order_book.bids).2 ∪ allFieldNames ≠ ∅ := by
      intro hAll
      rw [Finset.union_eq_empty] at hAll
      exact absurd hAll.2 (by decide)
    simp only [applyOrderBook, hbmid, hprior, Option.getD_none, eq_self_iff_true,
      if_true, if_neg hne] at hbrow
    rw [schedulePublish_rows] at hbrow
    dsimp only at hbrow
    rw [lookupA_setAssoc_self] at hbrow
    obtain rfl : _ = brow := Option.some_inj.mp hbrow
    constructor
    · intro hasks
      rw [hasks]
      dsimp only
      exact clearedA _ _
    · intro hbids
      rw [hbids]
      dsimp only
      exact clearedB _ _
  | some row0 =>
    simp only [applyOrderBook, hbmid, hprior, Option.getD_some, reduceCtorEq,
      if_false] at hbrow
    split at hbrow
    · -- no change detected: the old row already satisfied the cleared shape
      rename_i hch
      dsimp only at hbrow
      rw [hprior] at hbrow
      obtain rfl : row0 = brow := Option.some_inj.mp hbrow
      constructor
      · intro hasks
        rw [hasks] at hch
        simp only [applyBookFields, minByPrice, Option.map_none'] at hch
        obtain ⟨hap, hch⟩ := addIf_eq_empty hch
        obtain ⟨hasz, hch⟩ := addIf_eq_empty hch
        obtain ⟨hbp, hch⟩ := addIf_eq_empty hch
        obtain ⟨hbsz, hch⟩ := addIf_eq_empty hch
        obtain ⟨hmid, hch⟩ := addIf_eq_empty hch
        obtain ⟨hspr, hch⟩ := addIf_eq_empty hch
        exact ⟨assignOptional_none_flag _ hap, assignOptional_none_flag _ hasz,
          assignOptional_none_flag _ hmid, assignOptional_none_flag _ hspr⟩
      · intro hbids
        rw [hbids] at hch
        cases hasks : bmsg.order_book.asks with
        | nil =>
          rw [hasks] at hch
          simp only [applyBookFields, minByPrice, maxByPrice, Option.map_none'] at hch
          obtain ⟨hap, hch⟩ := addIf_eq_empty hch
          obtain ⟨hasz, hch⟩ := addIf_eq_empty hch
          obtain ⟨hbp, hch⟩ := addIf_eq_empty hch
          obtain ⟨hbsz, hch⟩ := addIf_eq_empty hch
          obtain ⟨hmid, hch⟩ := addIf_eq_empty hch
          obtain ⟨hspr, hch⟩ := addIf_eq_empty hch
          exact ⟨assignOptional_none_flag _ hbp, assignOptional_none_flag _ hbsz,
            assignOptional_none_flag _ hmid, assignOptional_none_flag _ hspr⟩
        | cons a as =>
          rw [hasks] at hch
          simp only [applyBookFields, minByPrice, maxByPrice, Option.map_none'] at hch
          obtain ⟨hap, hch⟩ := addIf_eq_empty hch
          obtain ⟨hasz, hch⟩ := addIf_eq_empty hch
          obtain ⟨hbp, hch⟩ := addIf_eq_empty hch
          obtain ⟨hbsz, hch⟩ := addIf_eq_empty hch
          obtain ⟨hmid, hch⟩ := addIf_eq_empty hch
          obtain ⟨hspr, hch⟩ := addIf_eq_empty hch
          exact ⟨assignOptional_none_flag _ hbp, assignOptional_none_flag _ hbsz,
            assignOptional_none_flag _ hmid, assignOptional_none_flag _ hspr⟩
    · -- stored row is the merged one
      dsimp only at hbrow
      rw [schedulePublish_rows] at hbrow
      dsimp only at hbrow
      rw [lookupA_setAssoc_self] at hbrow
      obtain rfl : _ = brow := Option.some_inj.mp hbrow
      constructor
      · intro hasks
        rw [hasks]
        dsimp only
        exact clearedA _ _
      · intro hbids
        rw [hbids]
        dsimp only
        exact clearedB _ _

/-- C3: stats merging is sticky — a null incoming value for any of the six
stats-derived fields leaves the stored value unchanged (for `funding_rate` and
`daily_volume` the incoming value is the effective one after the
variant-preference fallbacks) — while order-book merging clears the book-derived
fields of a side whose incoming level list is empty, together with `mid_price`
and `spread`. -/
theorem c3_sticky_stats_cleared_book
    (s : StoreState) (msg : MarketStatsMsg) (t : ℚ) (row row' : MarketRow)
    (bs : StoreState) (bmsg : OrderBookMsg) (u : ℚ) (bmid : ℤ) (brow : MarketRow)
    (hrow : lookupA s.rows msg.market_stats.market_id = some row)
    (hrow' : lookupA (applyMarketStats s msg t).1.rows msg.market_stats.market_id =
      some row')
    (hbmid : extractMarketId bmsg.channel = some bmid)
    (hbrow : lookupA (applyOrderBook bs bmsg u).1.rows bmid = some brow) :
    (msg.market_stats.last_trade_price = none → row'.last_price = row.last_price) ∧
    (msg.market_stats.mark_price = none → row'.mark_price = row.mark_price) ∧
    (msg.market_stats.index_price = none → row'.index_price = row.index_price) ∧
    (msg.market_stats.open_interest = none → row'.open_interest = row.open_interest) ∧
    (msg.market_stats.effectiveFundingRate = none →
      row'.funding_rate = row.funding_rate) ∧
    (msg.market_stats.effectiveDailyVolume = none →
      row'.daily_volume = row.daily_volume) ∧
    (bmsg.order_book.asks = [] →
      brow.best_ask_price = none ∧ brow.best_ask_size = none ∧
      brow.mid_price = none ∧ brow.spread = none) ∧
    (bmsg.order_book.bids = [] →
      brow.best_bid_price = none ∧ brow.best_bid_size = none ∧
      brow.mid_price = none ∧ brow.spread = none) := by
  obtain ⟨hA, hB⟩ := applyOrderBook_cleared_sides bs bmsg u bmid brow hbmid hbrow
  rcases applyMarketStats_stored_row s msg t row row' hrow hrow' with rfl | hnew
  · exact ⟨fun _ => rfl, fun _ => rfl, fun _ => rfl, fun _ => rfl, fun _ => rfl,
      fun _ => rfl, hA, hB⟩
  · obtain ⟨h1, h2, h3, h4, h5, h6⟩ := applyStats_fields row msg.market_stats
    refine ⟨?_, ?_, ?_, ?_, ?_, ?_, hA, hB⟩ <;> intro hnone
    · rw [hnew]
      show (applyStats row msg.market_stats).1.last_price = _
      rw [h1, hnone]
      rfl
    · rw [hnew]
      show (applyStats row msg.market_stats).1.mark_price = _
      rw [h2, hnone]
      rfl
    · rw [hnew]
      show (applyStats row msg.market_stats).1.index_price = _
      rw [h3, hnone]
      rfl
    · rw [hnew]
      show (applyStats row msg.market_stats).1.open_interest = _
      rw [h4, hnone]
      rfl
    · rw [hnew]
      show (applyStats row msg.market_stats).1.funding_rate = _
      rw [h5, hnone]
      rfl
    · rw [hnew]
      show (applyStats row msg.market_stats).1.daily_volume = _
      rw [h6, hnone]
      rfl

/-- Concrete pre-existing row for the C3 witness. -/
def c3row : MarketRow :=
  { market_id := 1, last_price := some 7, mark_price := some 3, index_price := some 2,
    funding_rate := some (1/2), daily_volume := some 4, open_interest := some 5,
    basis := some 1, updated_ms := 0 }

/-- Concrete store holding `c3row` for the C3 witness. -/
def c3store : StoreState :=
  { rows := [(1, c3row)], lastPublish := [], pending := [], flushTasks := [],
    debounce := 1/5, metadata := [] }

/-- All-null stats message for the C3 witness. -/
def c3msg : MarketStatsMsg := { channel := "market_stats:1", market_stats := { market_id := 1 } }

/-- Both-sides-empty order-book message for the C3 witness. -/
def c3bmsg : OrderBookMsg := { channel := "order_book/7", order_book := { asks := [], bids := [] } }

/-- The row stored for market 7 after applying `c3bmsg` to an empty store at
time 9. -/
def c3brow : MarketRow := { market_id := 7, updated_ms := 9000 }

unseal Rat.mul Rat.inv Rat.add Rat.sub in
theorem c3_witness :
    c3row.last_price = c3row.last_price ∧
    c3row.mark_price = c3row.mark_price ∧
    c3row.index_price = c3row.index_price ∧
    c3row.open_interest = c3row.open_interest ∧
    c3row.funding_rate = c3row.funding_rate ∧
    c3row.daily_volume = c3row.daily_volume ∧
    (c3brow.best_ask_price = none ∧ c3brow.best_ask_size = none ∧
      c3brow.mid_price = none ∧ c3brow.spread = none) ∧
    (c3brow.best_bid_price = none ∧ c3brow.best_bid_size = none ∧
      c3brow.mid_price = none ∧ c3brow.spread = none) := by
  have h := c3_sticky_stats_cleared_book c3store c3msg 9 c3row c3row
    (initStore (1/5) []) c3bmsg 9 7 c3brow
    (by decide) (by decide) (by decide) (by decide)
  exact ⟨h.1 rfl, h.2.1 rfl, h.2.2.1 rfl, h.2.2.2.1 rfl, h.2.2.2.2.1 rfl,
    h.2.2.2.2.2.1 rfl, h.2.2.2.2.2.2.1 rfl, h.2.2.2.2.2.2.2 rfl⟩

/-! ### C4: applying the same stats message twice emits exactly once -/

theorem assignOptional_kept (c v : Option ℚ) :
    assignOptional (assignOptional c v).1 v = ((assignOptional c v).1, false) := by
  cases v with
  | none => cases c <;> rfl
  | some x =>
    cases c with
    | none => simp [assignOptional, almostEqualQ_refl]
    | some c0 =>
      by_cases h : almostEqualQ c0 x
      · simp [assignOptional, h]
      · simp [assignOptional, h, almostEqualQ_refl]

theorem updateIfNotNone_stable (c v : Option ℚ) :
    updateIfNotNone (updateIfNotNone c v).1 v = ((updateIfNotNone c v).1, false) := by
  cases v with
  | none => rfl
  | some x => exact assignOptional_kept c (some x)

/-- Re-applying the same stats body to the row it just produced (with any
`updated_ms` stamp) detects no change. -/
theorem applyStats_twice_empty (t0 : MarketRow) (st : MarketStatsBody) (z : ℤ) :
    (applyStats { (applyStats t0 st).1 with updated_ms := z } st).2 = ∅ := by
  simp only [applyStats]
  simp only [updateIfNotNone_stable]
  simp only [assignOptional_kept]
  simp [addIf]

theorem schedulePublish_emits_one (s : StoreState) (row : MarketRow) (f : Finset String)
    (t : ℚ) (hf : f ≠ ∅) (hlast : lookupA s.lastPublish row.market_id = none)
    (hdeb : s.debounce ≤ t) :
    (schedulePublish s row f t).2.length = 1 := by
  simp only [schedulePublish, if_neg hf]
  rw [hlast]
  simp only [Option.getD_none, sub_zero, if_pos hdeb]
  simp only [emitStore, lookupA_setAssoc_self]
  rfl

theorem applyMarketStats_fresh_shape (s : StoreState) (msg : MarketStatsMsg) (t1 : ℚ)
    (hfresh : lookupA s.rows msg.market_stats.market_id = none)
    (hlast : lookupA s.lastPublish msg.market_stats.market_id = none)
    (hdeb : s.debounce ≤ t1) :
    (applyMarketStats s msg t1).2.2.length = 1 ∧
    (applyMarketStats s msg t1).1.rows =
      setAssoc s.rows msg.market_stats.market_id
        { (applyStats (freshRow s msg.market_stats.market_id t1) msg.market_stats).1
          with updated_ms := nowMs t1 } := by
  have hunion : (applyStats (freshRow s msg.market_stats.market_id t1)
      msg.market_stats).2 ∪ allFieldNames ≠ ∅ := by
    intro hAll
    rw [Finset.union_eq_empty] at hAll
    exact absurd hAll.2 (by decide)
  constructor
  · simp only [applyMarketStats, hfresh, Option.getD_none, eq_self_iff_true,
      if_true, if_neg hunion]
    exact schedulePublish_emits_one _ _ _ _ (Finset.insert_ne_empty _ _) hlast hdeb
  · simp only [applyMarketStats, hfresh, Option.getD_none, eq_self_iff_true,
      if_true, if_neg hunion]
    rw [schedulePublish_rows]

/-- C4: on a fresh market with an elapsed debounce window, applying a stats
message publishes exactly one sparse update; applying the very same message
again returns `None`, publishes nothing and leaves the store state untouched,
so the pair of calls yields exactly one emission. -/
theorem c4_idempotent_republish (s : StoreState) (msg : MarketStatsMsg) (t1 t2 : ℚ)
    (hfresh : lookupA s.rows msg.market_stats.market_id = none)
    (hlast : lookupA s.lastPublish msg.market_stats.market_id = none)
    (hdeb : s.debounce ≤ t1) :
    (applyMarketStats s msg t1).2.2.length = 1 ∧
    applyMarketStats (applyMarketStats s msg t1).1 msg t2 =
      ((applyMarketStats s msg t1).1, none, []) := by
  obtain ⟨hlen, hrows⟩ := applyMarketStats_fresh_shape s msg t1 hfresh hlast hdeb
  refine ⟨hlen, ?_⟩
  have hprior2 : lookupA (applyMarketStats s msg t1).1.rows
      msg.market_stats.market_id =
      some { (applyStats (freshRow s msg.market_stats.market_id t1)
        msg.market_stats).1 with updated_ms := nowMs t1 } := by
    rw [hrows, lookupA_setAssoc_self]
  have hempty := applyStats_twice_empty (freshRow s msg.market_stats.market_id t1)
    msg.market_stats (nowMs t1)
  generalize hs2 : (applyMarketStats s msg t1).1 = s2 at hprior2 ⊢
  simp only [applyMarketStats, hprior2, Option.getD_some, reduceCtorEq, if_false,
    hempty, eq_self_iff_true, if_true]

/-- Concrete stats message for the C4 witness. -/
def c4msg : MarketStatsMsg :=
  { channel := "market_stats:1",
    market_stats :=
      { market_id := 1, last_trade_price := some 100, mark_price := some (1001/10),
        index_price := some (10005/100), open_interest := some 2500,
        current_funding_rate := some (21/5000), funding_rate := some (11/5000),
        daily_base_token_volume := some (123/10),
        daily_quote_token_volume := some (4938270/50) } }

unseal Rat.mul Rat.inv Rat.add Rat.sub in
theorem c4_witness :
    (applyMarketStats (initStore (1/5) []) c4msg 1).2.2.length = 1 ∧
    applyMarketStats (applyMarketStats (initStore (1/5) []) c4msg 1).1 c4msg 2 =
      ((applyMarketStats (initStore (1/5) []) c4msg 1).1, none, []) :=
  c4_idempotent_republish (initStore (1/5) []) c4msg 1 2 (by decide) (by decide)
    (by decide)

/-! ### C6: cross-sectional z-scores -/

theorem lookupA_eq_none_of_not_mem {β : Type} (l : List (ℤ × β)) (k : ℤ)
    (h : k ∉ l.map Prod.fst) : lookupA l k = none := by
  induction l with
  | nil => rfl
  | cons hd tl ih =>
    obtain ⟨k0, v⟩ := hd
    simp only [List.map_cons, List.mem_cons, not_or] at h
    have h1 : ¬ k0 = k := fun hh => h.1 hh.symm
    simp [lookupA, h1, ih h.2]

theorem toDict_append {β : Type} (l : List (ℤ × β)) (k : ℤ) (v : β) :
    toDict (l ++ [(k, v)]) = setAssoc (toDict l) k v := by
  simp [toDict, List.foldl_append]

/-- On a duplicate-free key list, the Python-dict construction agrees with a
plain first-match association-list lookup. -/
theorem lookupA_toDict {β : Type} (l : List (ℤ × β)) (h : (l.map Prod.fst).Nodup)
    (k : ℤ) : lookupA (toDict l) k = lookupA l k := by
  induction l using List.reverseRecOn with
  | nil => rfl
  | append_singleton l' x ih =>
    obtain ⟨k0, v0⟩ := x
    rw [toDict_append]
    rw [List.map_append, List.nodup_append] at h
    by_cases hk : k = k0
    · subst hk
      rw [lookupA_setAssoc_self]
      have hnot : lookupA l' k = none := by
        apply lookupA_eq_none_of_not_mem
        intro hmem
        exact h.2.2 hmem (by simp)
      rw [lookupA_append, hnot]
      simp [lookupA]
    · rw [lookupA_setAssoc_other _ _ _ _ hk, ih h.1, lookupA_append]
      cases hl : lookupA l' k with
      | none =>
        have h1 : ¬ k0 = k := fun hh => hk hh.symm
        simp [lookupA, h1]
      | some w => simp

theorem lookupA_map_row {β : Type} (rows : List MarketRow) (v : MarketRow → β)
    (r : MarketRow) (hnd : (rows.map MarketRow.market_id).Nodup) (hr : r ∈ rows) :
    lookupA (rows.map (fun x => (x.market_id, v x))) r.market_id = some (v r) := by
  induction rows with
  | nil => cases hr
  | cons x xs ih =>
    simp only [List.map_cons, List.nodup_cons] at hnd
    rcases List.mem_cons.mp hr with rfl | hmem
    · simp [lookupA]
    · by_cases hid : x.market_id = r.market_id
      · exact absurd (hid ▸ List.mem_map_of_mem MarketRow.market_id hmem) hnd.1
      · simp [lookupA, hid, ih hnd.2 hmem]

theorem fundingValues_snd (rows : List MarketRow) :
    (rows.filterMap (fun r => r.funding_rate.map
        (fun f => (r.market_id, (Rat.cast f : ℝ))))).map Prod.snd =
      rows.filterMap (fun r => r.funding_rate.map (fun f => (Rat.cast f : ℝ))) := by
  induction rows with
  | nil => rfl
  | cons x xs ih =>
    cases hf : x.funding_rate with
    | none =>
      simp only [List.filterMap_cons, hf, Option.map_none']
      exact ih
    | some f =>
      simp only [List.filterMap_cons, hf, Option.map_some', List.map_cons]
      rw [ih]

/-- C6: the z-score dictionary maps every row to the value prescribed by the
spec: with fewer than `min_assets` non-null funding rates, or a zero population
standard deviation (divisor `max(n, 1)`, `ddof = 0`), the z-score is null for
every row; otherwise a row with funding `f` gets `(f - mean)/std` over exactly
the non-null funding rates, and a null-funding row gets null. -/
theorem c6_zscores (rows : List MarketRow) (minAssets : ℕ) (r : MarketRow)
    (hnd : (rows.map MarketRow.market_id).Nodup) (hr : r ∈ rows) :
    lookupA (computeZscores rows minAssets 0) r.market_id =
      some (
        let fs : List ℝ := rows.filterMap (fun x => x.funding_rate.map
          (fun f => (Rat.cast f : ℝ)))
        let n : ℕ := fs.length
        let mean : ℝ := fs.sum / n
        let std : ℝ := Real.sqrt (((fs.map (fun f => (f - mean) ^ 2)).sum) / max n 1)
        if n < minAssets ∨ std = 0 then none
        else r.funding_rate.map (fun f => ((Rat.cast f : ℝ) - mean) / std)) := by
  have hsnd := fundingValues_snd rows
  have hlen : (rows.filterMap (fun r => r.funding_rate.map
      (fun f => (r.market_id, (Rat.cast f : ℝ))))).length =
      (rows.filterMap (fun r => r.funding_rate.map (fun f => (Rat.cast f : ℝ)))).length := by
    rw [← hsnd, List.length_map]
  have hkeys : ∀ v : MarketRow → Option ℝ,
      ((rows.map (fun x => (x.market_id, v x))).map Prod.fst).Nodup := by
    intro v
    simpa [List.map_map, Function.comp] using hnd
  simp only [computeZscores, hsnd, hlen, Nat.sub_zero]
  by_cases hmin : (rows.filterMap (fun r => r.funding_rate.map
      (fun f => (Rat.cast f : ℝ)))).length < minAssets
  · rw [if_pos hmin, lookupA_toDict _ (hkeys _), lookupA_map_row _ _ _ hnd hr]
    simp [hmin]
  · rw [if_neg hmin]
    set fs : List ℝ := rows.filterMap (fun x => x.funding_rate.map
      (fun f => (Rat.cast f : ℝ))) with hfs
    set mean : ℝ := fs.sum / fs.length with hmean
    have hvar : ((rows.filterMap (fun r => r.funding_rate.map
          (fun f => (r.market_id, (Rat.cast f : ℝ))))).map
            (fun p => (p.2 - mean) ^ 2)).sum =
        ((fs.map (fun f => (f - mean) ^ 2)).sum) := by
      rw [← hsnd, List.map_map]
      rfl
    rw [hvar]
    set std : ℝ := Real.sqrt (((fs.map (fun f => (f - mean) ^ 2)).sum) / max fs.length 1)
      with hstd
    by_cases hz : std ≤ 0
    · have hz0 : std = 0 := le_antisymm hz (hstd ▸ Real.sqrt_nonneg _)
      rw [if_pos hz, lookupA_toDict _ (hkeys _), lookupA_map_row _ _ _ hnd hr]
      simp [hz0]
    · rw [if_neg hz, lookupA_toDict _ (hkeys _), lookupA_map_row _ _ _ hnd hr]
      have : ¬ (fs.length < minAssets ∨ std = 0) := by
        rintro (h | h)
        · exact hmin h
        · exact hz (le_of_eq h)
      simp only [this, if_false, if_neg this]

/-- Concrete rows for the C6 witness: fundings 0 and 2, so the population
standard deviation is exactly 1 and the z-scores are -1 and 1. -/
def c6row1 : MarketRow := { market_id := 1, funding_rate := some 0, updated_ms := 0 }

def c6row2 : MarketRow := { market_id := 2, funding_rate := some 2, updated_ms := 0 }

theorem c6_witness :
    lookupA (computeZscores [c6row1, c6row2] 2 0) 1 = some (some (-1 : ℝ)) := by
  have h := c6_zscores [c6row1, c6row2] 2 c6row1 (by decide) (List.mem_cons_self _ _)
  rw [show (c6row1.market_id : ℤ) = 1 from rfl] at h
  rw [h]
  norm_num [c6row1, c6row2, List.filterMap_cons, Real.sqrt_one]

/-! ### C1: the mid/spread row invariant -/

/-- First order-book message of the C1 scenario: ask 101, bid 99. -/
def c1msg1 : OrderBookMsg :=
  { channel := "order_book/5", order_book := { asks := [⟨101, 1⟩], bids := [⟨99, 1⟩] } }

/-- Second order-book message of the C1 scenario: ask 100.50000002, bid 99.5.
The new mid `100.00000001` is within the merge tolerance of the stored mid
`100`, so the stored `mid_price` is kept while both best prices move. -/
def c1msg2 : OrderBookMsg :=
  { channel := "order_book/5",
    order_book := { asks := [⟨5025000001/50000000, 1⟩], bids := [⟨199/2, 1⟩] } }

def c1ops : List StoreOp := [.book c1msg1 1000, .book c1msg2 1001]

/-- The market-5 row held by the store after the two C1 order-book messages. -/
def c1finalRow : MarketRow :=
  { market_id := 5, best_bid_price := some (199/2), best_bid_size := some 1,
    best_ask_price := some (5025000001/50000000), best_ask_size := some 1,
    mid_price := some 100, spread := some (1000000020000/10000000001),
    updated_ms := 1001000 }

unseal Rat.mul Rat.inv Rat.add Rat.sub in
/-- C1, counterexample.  After the two order-book applications both best prices
are present, but the stored `mid_price` is the stale `100`, not
`(bid + ask)/2 = 100.00000001`: `_assign_optional` kept the old mid because the
change fell inside the `isclose` tolerance while both best prices moved beyond
it.  So `mid_price = (bid+ask)/2` fails on a reachable store row. -/
theorem c1_counterexample :
    lookupA (runOps (initStore (1/5) []) c1ops).rows 5 = some c1finalRow ∧
    c1finalRow.best_bid_price = some (199/2) ∧
    c1finalRow.best_ask_price = some (5025000001/50000000) ∧
    c1finalRow.mid_price = some 100 ∧
    (100 : ℚ) ≠ (199/2 + 5025000001/50000000) / 2 := by
  refine ⟨by decide, rfl, rfl, rfl, by norm_num⟩

/-- C1, amended invariant.  When both best prices are present, `mid_price` and
`spread` are present and within the merge tolerance of the values derived from
the best ask `a` and best bid `b` of the most recent order-book application —
themselves within tolerance of the stored best prices: `mid ≈ (a+b)/2` and
`spread ≈ (a-b)/((a+b)/2)·10⁴` (with `spread` absent in the degenerate case
`(a+b)/2 = 0`).  When either best price is absent, both `mid_price` and
`spread` are absent. -/
def midSpreadInv (row : MarketRow) : Prop :=
  ((row.best_bid_price = none ∨ row.best_ask_price = none) →
    row.mid_price = none ∧ row.spread = none) ∧
  ∀ bid ask : ℚ, row.best_bid_price = some bid → row.best_ask_price = some ask →
    ∃ a b : ℚ, almostEqualQ ask a = true ∧ almostEqualQ bid b = true ∧
      (∃ m, row.mid_price = some m ∧ almostEqualQ m ((a + b) / 2) = true) ∧
      ((a + b) / 2 = 0 → row.spread = none) ∧
      ((a + b) / 2 ≠ 0 → ∃ sp, row.spread = some sp ∧
        almostEqualQ sp ((a - b) / ((a + b) / 2) * 10000) = true)

theorem assignOptional_some_val (c : Option ℚ) (v : ℚ) :
    ∃ w, (assignOptional c (some v)).1 = some w ∧ almostEqualQ w v = true := by
  cases c with
  | none => exact ⟨v, rfl, almostEqualQ_refl v⟩
  | some c0 =>
    by_cases h : almostEqualQ c0 v
    · exact ⟨c0, by simp [assignOptional, h], h⟩
    · exact ⟨v, by simp [assignOptional, h], almostEqualQ_refl v⟩

/-- The row produced by one order-book merge satisfies the invariant, whatever
the previous row looked like. -/
theorem applyBookFields_inv (t : MarketRow) (asks bids : List OrderLevel) :
    midSpreadInv (applyBookFields t asks bids).1 := by
  cases hba : minByPrice asks with
  | none =>
    simp only [applyBookFields, hba, Option.map_none']
    constructor
    · intro _
      exact ⟨assignOptional_none_val _, assignOptional_none_val _⟩
    · intro bid ask _ hask
      rw [show ({ t with
          best_ask_price := (assignOptional t.best_ask_price none).1,
          best_ask_size := (assignOptional t.best_ask_size none).1,
          best_bid_price := (assignOptional t.best_bid_price
            ((maxByPrice bids).map OrderLevel.price)).1,
          best_bid_size := (assignOptional t.best_bid_size
            ((maxByPrice bids).map OrderLevel.size)).1,
          mid_price := (assignOptional t.mid_price none).1,
          spread := (assignOptional t.spread none).1,
          markout := (assignOptional t.markout
            (calcMarkout (assignOptional t.mid_price none).1 t.last_price)).1
        } : MarketRow).best_ask_price = (assignOptional t.best_ask_price none).1
        from rfl, assignOptional_none_val] at hask
      exact absurd hask (by simp)
  | some la =>
    cases hbb : maxByPrice bids with
    | none =>
      simp only [applyBookFields, hba, hbb, Option.map_none', Option.map_some']
      constructor
      · intro _
        exact ⟨assignOptional_none_val _, assignOptional_none_val _⟩
      · intro bid ask hbid _
        rw [show (∀ x : MarketRow, x.best_bid_price = x.best_bid_price) from
          fun _ => rfl] at hbid
        revert hbid
        show (assignOptional t.best_bid_price none).1 = some bid → _
        rw [assignOptional_none_val]
        intro hbid
        exact absurd hbid (by simp)
    | some lb =>
      simp only [applyBookFields, hba, hbb, Option.map_some']
      obtain ⟨wa, hwa, hwa2⟩ := assignOptional_some_val t.best_ask_price la.price
      obtain ⟨wb, hwb, hwb2⟩ := assignOptional_some_val t.best_bid_price lb.price
      obtain ⟨wm, hwm, hwm2⟩ := assignOptional_some_val t.mid_price
        ((la.price + lb.price) / 2)
      constructor
      · rintro (hbid | hask)
        · revert hbid
          show (assignOptional t.best_bid_price (some lb.price)).1 = none → _
          rw [hwb]
          intro hb
          exact absurd hb (by simp)
        · revert hask
          show (assignOptional t.best_ask_price (some la.price)).1 = none → _
          rw [hwa]
          intro ha
          exact absurd ha (by simp)
      · intro bid ask hbid hask
        replace hbid : (assignOptional t.best_bid_price (some lb.price)).1 = some bid :=
          hbid
        replace hask : (assignOptional t.best_ask_price (some la.price)).1 = some ask :=
          hask
        rw [hwb] at hbid
        rw [hwa] at hask
        obtain rfl : wb = bid := Option.some_inj.mp hbid
        obtain rfl : wa = ask := Option.some_inj.mp hask
        refine ⟨la.price, lb.price, hwa2, hwb2, ⟨wm, hwm, hwm2⟩, ?_, ?_⟩
        · intro h0
          show (assignOptional t.spread
            (if (la.price + lb.price) / 2 = 0 then none
             else some ((la.price - lb.price) / ((la.price + lb.price) / 2) * 10000))).1 =
            none
          rw [if_pos h0, assignOptional_none_val]
        · intro h0
          obtain ⟨ws, hws, hws2⟩ := assignOptional_some_val t.spread
            ((la.price - lb.price) / ((la.price + lb.price) / 2) * 10000)
          refine ⟨ws, ?_, hws2⟩
          show (assignOptional t.spread
            (if (la.price + lb.price) / 2 = 0 then none
             else some ((la.price - lb.price) / ((la.price + lb.price) / 2) * 10000))).1 =
            some ws
          rw [if_neg h0, hws]

/-- A fresh row trivially satisfies the invariant. -/
theorem freshRow_inv (s : StoreState) (mid : ℤ) (t : ℚ) :
    midSpreadInv (freshRow s mid t) := by
  constructor
  · intro _
    exact ⟨rfl, rfl⟩
  · intro bid ask hbid _
    exact absurd hbid (by simp [freshRow])

/-- `_apply_stats` does not touch the book-derived fields, so the invariant is
insensitive to a stats merge and to re-stamping `updated_ms`. -/
theorem midSpreadInv_applyStats (u : MarketRow) (st : MarketStatsBody) (z : ℤ)
    (h : midSpreadInv u) :
    midSpreadInv { (applyStats u st).1 with updated_ms := z } := h

theorem midSpreadInv_book_restamp (u : MarketRow) (asks bids : List OrderLevel)
    (z : ℤ) :
    midSpreadInv { (applyBookFields u asks bids).1 with updated_ms := z } :=
  applyBookFields_inv u asks bids

/-- Store-wide invariant: every stored row satisfies `midSpreadInv`. -/
def storeInv (s : StoreState) : Prop :=
  ∀ mid row, lookupA s.rows mid = some row → midSpreadInv row

theorem storeInv_init (ui : ℚ) (md : List (ℤ × String)) :
    storeInv (initStore ui md) := by
  intro mid row h
  exact absurd h (by simp [initStore, lookupA])

theorem applyMarketStats_rows (s : StoreState) (msg : MarketStatsMsg) (t : ℚ) :
    (applyMarketStats s msg t).1.rows = s.rows ∨
    (applyMarketStats s msg t).1.rows =
      setAssoc s.rows msg.market_stats.market_id
        { (applyStats ((lookupA s.rows msg.market_stats.market_id).getD
            (freshRow s msg.market_stats.market_id t)) msg.market_stats).1
          with updated_ms := nowMs t } := by
  cases hprior : lookupA s.rows msg.market_stats.market_id with
  | none =>
    simp only [applyMarketStats, hprior, Option.getD_none, eq_self_iff_true, if_true]
    split
    · left
      rfl
    · right
      rw [schedulePublish_rows]
  | some row0 =>
    simp only [applyMarketStats, hprior, Option.getD_some, reduceCtorEq, if_false]
    split
    · left
      rfl
    · right
      rw [schedulePublish_rows]

theorem applyOrderBook_rows (s : StoreState) (msg : OrderBookMsg) (t : ℚ) :
    (applyOrderBook s msg t).1.rows = s.rows ∨
    ∃ mid, extractMarketId msg.channel = some mid ∧
      (applyOrderBook s msg t).1.rows =
        setAssoc s.rows mid
          { (applyBookFields ((lookupA s.rows mid).getD (freshRow s mid t))
              msg.order_book.asks msg.order_book.bids).1
            with updated_ms := nowMs t } := by
  cases hc : extractMarketId msg.channel with
  | none =>
    left
    simp only [applyOrderBook, hc]
  | some mid =>
    cases hprior : lookupA s.rows mid with
    | none =>
      simp only [applyOrderBook, hc, hprior, Option.getD_none, eq_self_iff_true,
        if_true]
      split
      · left
        rfl
      · right
        refine ⟨mid, rfl, ?_⟩
        rw [hprior, Option.getD_none, schedulePublish_rows]
    | some row0 =>
      simp only [applyOrderBook, hc, hprior, Option.getD_some, reduceCtorEq, if_false]
      split
      · left
        rfl
      · right
        refine ⟨mid, rfl, ?_⟩
        rw [hprior, Option.getD_some, schedulePublish_rows]

theorem storeInv_step (s : StoreState) (hs : storeInv s) (op : StoreOp) :
    storeInv (stepStore s op) := by
  cases op with
  | stats msg t =>
    intro mid row hrow
    simp only [stepStore] at hrow
    rcases applyMarketStats_rows s msg t with heq | heq
    · exact hs mid row (heq ▸ hrow)
    · rw [heq] at hrow
      by_cases hmid : msg.market_stats.market_id = mid
      · subst hmid
        rw [lookupA_setAssoc_self] at hrow
        obtain rfl := (Option.some_inj.mp hrow).symm
        cases hprior : lookupA s.rows msg.market_stats.market_id with
        | none =>
          exact midSpreadInv_applyStats _ _ _
            (freshRow_inv s msg.market_stats.market_id t)
        | some u =>
          exact midSpreadInv_applyStats _ _ _
            (hs msg.market_stats.market_id u hprior)
      · rw [lookupA_setAssoc_other _ _ _ _ (fun hh => hmid hh.symm)] at hrow
        exact hs mid row hrow
  | book msg t =>
    intro mid row hrow
    simp only [stepStore] at hrow
    rcases applyOrderBook_rows s msg t with heq | ⟨bmid, _, heq⟩
    · exact hs mid row (heq ▸ hrow)
    · rw [heq] at hrow
      by_cases hmid : bmid = mid
      · subst hmid
        rw [lookupA_setAssoc_self] at hrow
        obtain rfl := (Option.some_inj.mp hrow).symm
        exact midSpreadInv_book_restamp _ _ _ _
      · rw [lookupA_setAssoc_other _ _ _ _ (fun hh => hmid hh.symm)] at hrow
        exact hs mid row hrow

/-- C1, amended theorem: every row held in the store after any sequence of
`apply_market_stats` and `apply_order_book` operations satisfies the
tolerance-level mid/spread invariant `midSpreadInv`. -/
theorem c1_mid_spread_invariant (ui : ℚ) (md : List (ℤ × String))
    (ops : List StoreOp) (mid : ℤ) (row : MarketRow)
    (h : lookupA (runOps (initStore ui md) ops).rows mid = some row) :
    midSpreadInv row := by
  have hall : ∀ (l : List StoreOp) (s : StoreState), storeInv s →
      storeInv (l.foldl stepStore s) := by
    intro l
    induction l with
    | nil => exact fun s hssub => hssub
    | cons op l ih => exact fun s hssub => ih _ (storeInv_step s hssub op)
  exact hall ops _ (storeInv_init ui md) mid row h

/-- The market-5 row held by the store after the first C1 order-book message. -/
def c1midRow : MarketRow :=
  { market_id := 5, best_bid_price := some 99, best_bid_size := some 1,
    best_ask_price := some 101, best_ask_size := some 1,
    mid_price := some 100, spread := some 200, updated_ms := 1000000 }

unseal Rat.mul Rat.inv Rat.add Rat.sub in
theorem c1_witness : midSpreadInv c1midRow :=
  c1_mid_spread_invariant (1/5) [] [.book c1msg1 1000] 5 c1midRow (by decide)

end LighterMD
